import Mathlib

/-!
Shallow embedding of the Review-Aggregation Consistency core of the RVHub
repository: the `reviews` API route (`updateItemRating`, `GET`, `POST`,
`PUT`, `DELETE` in `src/unnamed/part_001`) over the two persisted
collections declared in `src/unnamed/part_000` (`items`, `reviews`).

Modelling conventions:
* SQLite rows become Lean structures; the two tables become lists in a `DB`
  record, and each handler is a pure function from a `DB` (plus the parsed
  request) to a response together with the resulting `DB`.
* JS numbers arriving in request bodies are modelled as `Rat` (the claims
  never involve NaN/Infinity payloads, and `parseInt` applied to a finite
  decimal number truncates toward zero, modelled by `jsParseInt`).
* The float `averageRating` is modelled as `Rat`: the stored value is the
  result of one division of a review-rating sum by a count.
* `new Date().toISOString()` timestamps are an opaque `now : String`
  parameter threaded into each handler.
-/

namespace RVHub

/-- Persisted `items` row (table `items` in `src/unnamed/part_000`):
surrogate id, descriptive fields, and the two derived aggregate columns
`averageRating` / `totalReviews` plus timestamps. -/
structure Item where
  id : Int
  name : String
  description : Option String
  category : String
  imageUrl : Option String
  averageRating : Rat
  totalReviews : Nat
  createdAt : String
  updatedAt : String
deriving Repr, DecidableEq

/-- Persisted `reviews` row (table `reviews` in `src/unnamed/part_000`). -/
structure Review where
  id : Int
  itemId : Int
  userId : String
  rating : Int
  title : String
  comment : Option String
  createdAt : String
  updatedAt : String
deriving Repr, DecidableEq

/-- The record store: the two collections the route reads and mutates. -/
structure DB where
  items : List Item
  reviews : List Review
deriving Repr, DecidableEq

/-- The select `db.select().from(reviews).where(eq(reviews.itemId, itemId))`
used by the recomputation engine (`src/unnamed/part_001` line 8). -/
def reviewsFor (db : DB) (itemId : Int) : List Review :=
  db.reviews.filter (fun r => r.itemId == itemId)

/-- The JS reduce `itemReviews.reduce((sum, r) => sum + r.rating, 0)`
(`src/unnamed/part_001` line 11). -/
def sumRatings (rs : List Review) : Int :=
  rs.foldl (fun sum r => sum + r.rating) 0

/-- The ternary `itemReviews.length > 0 ? itemReviews.reduce(...) /
itemReviews.length : 0` computing the new average from the fetched review
list (`src/unnamed/part_001` lines 10-12). -/
def averageOf (itemReviews : List Review) : Rat :=
  if itemReviews.length > 0 then
    (sumRatings itemReviews : Rat) / (itemReviews.length : Rat)
  else 0

/-- The statement `db.update(items).set({averageRating, totalReviews,
updatedAt}).where(eq(items.id, itemId))` (`src/unnamed/part_001`
lines 14-20), applied to a previously fetched review list: write
`averageRating`, `totalReviews` and a fresh `updatedAt` to every `items`
row whose id matches. When no item row matches, the UPDATE affects zero
rows and raises nothing, so the map leaves `items` unchanged. -/
def writeAggregates (db : DB) (itemId : Int) (itemReviews : List Review)
    (now : String) : DB :=
  { db with
    items := db.items.map (fun it =>
      if it.id == itemId then
        { it with
          averageRating := averageOf itemReviews
          totalReviews := itemReviews.length
          updatedAt := now }
      else it) }

/-- Aggregation Recomputation Engine `updateItemRating(itemId)`
(`src/unnamed/part_001` lines 6-25): the awaited select (`reviewsFor`)
followed by the awaited update (`writeAggregates`). The two statements are
separate awaits in the source; the split into `reviewsFor` and
`writeAggregates` records that boundary for the interleaving analysis. -/
def updateItemRating (db : DB) (itemId : Int) (now : String) : DB :=
  writeAggregates db itemId (reviewsFor db itemId) now

/-- A concrete item row used by witnesses: fresh item with empty aggregate. -/
def item1 : Item := ⟨1, "Widget", none, "tools", none, 0, 0, "t0", "t0"⟩

/-- The same item row after recomputation over ratings 4 and 2. -/
def item1After : Item := ⟨1, "Widget", none, "tools", none, 3, 2, "t0", "t1"⟩

/-- A concrete store used by witnesses: one item, two reviews for it with
ratings 4 and 2. -/
def sampleDB : DB :=
  ⟨[item1],
   [⟨10, 1, "alice", 4, "good", none, "t0", "t0"⟩,
    ⟨11, 1, "bob", 2, "ok", none, "t0", "t0"⟩]⟩

/-- The mean the specification prescribes for an item's review set: sum of
the ratings divided by their count, or 0 on the empty set. Stated
independently of the engine so theorems can compare the engine against it. -/
def specMean (rs : List Review) : Rat :=
  if rs.length = 0 then 0
  else ((rs.map Review.rating).sum : Rat) / (rs.length : Rat)

/-- Responses the route produces (`NextResponse.json(body, {status})`):
an error body with optional machine-readable `code`, a review payload
(single fetch / create / update), the DELETE acknowledgement carrying the
deleted id, or the GET list payload. -/
inductive ReviewResponse where
  | err (status : Nat) (code : Option String)
  | reviewOk (status : Nat) (r : Review)
  | deleteOk (status : Nat) (deletedId : Int)
  | listOk (status : Nat) (rs : List Review)
deriving Repr, DecidableEq

/-- JS `parseInt` applied to a finite number rendered in plain decimal
notation: truncation toward zero (floor for nonnegative, ceiling for
negative). Request-body numbers are modelled as `Rat`. -/
def jsParseInt (q : Rat) : Int :=
  if 0 ≤ q then ⌊q⌋ else ⌈q⌉

/-- JS falsiness of an optional numeric field (`!x`): absent or zero. -/
def jsFalsyNum (x : Option Rat) : Bool :=
  match x with
  | none => true
  | some q => q == 0

/-- JS `String.prototype.trim()`: strip leading and trailing whitespace,
modelled over the string's character list. (Lean's own `String.trim` is
built from `Substring` helpers that resist kernel evaluation; this list
form performs the same strip.) -/
def jsTrim (s : String) : String :=
  ⟨((s.data.dropWhile Char.isWhitespace).reverse.dropWhile Char.isWhitespace).reverse⟩

/-- The expression `comment ? comment.trim() : null` applied to an optional
string: an absent or empty comment becomes NULL, anything else is trimmed. -/
def trimOrNull (comment : Option String) : Option String :=
  match comment with
  | none => none
  | some c => if c == "" then none else some (jsTrim c)

/-- Parsed JSON body of a Create request (`src/unnamed/part_001` line 88):
each field may be absent; numeric fields are JSON numbers. -/
structure CreateInput where
  itemId : Option Rat
  userId : Option String
  rating : Option Rat
  title : Option String
  comment : Option String
deriving Repr, DecidableEq

/-- The insert `db.insert(reviews).values({...})` appending one row. -/
def insertReview (db : DB) (r : Review) : DB :=
  { db with reviews := db.reviews ++ [r] }

/-- Review Mutation Handler Create, `POST` (`src/unnamed/part_001` lines
85-144): validate `itemId`, `userId`, `rating`, `title` in order, check the
referenced item exists, insert the review row (with the store-assigned
`nextId`), run `updateItemRating`, and return the inserted row with 201.
Each failed check returns its 400/404 response with the store untouched. -/
def POST (db : DB) (inp : CreateInput) (nextId : Int) (now : String) :
    ReviewResponse × DB :=
  match inp.itemId with
  | none => (.err 400 (some "INVALID_ITEM_ID"), db)
  | some itemIdRaw =>
    if itemIdRaw == 0 then (.err 400 (some "INVALID_ITEM_ID"), db)
    else match inp.userId with
    | none => (.err 400 (some "INVALID_USER_ID"), db)
    | some userId =>
      if (jsTrim userId) == "" then (.err 400 (some "INVALID_USER_ID"), db)
      else match inp.rating with
      | none => (.err 400 (some "INVALID_RATING"), db)
      | some ratingRaw =>
        if ratingRaw == 0 ∨ jsParseInt ratingRaw < 1 ∨ jsParseInt ratingRaw > 5 then
          (.err 400 (some "INVALID_RATING"), db)
        else match inp.title with
        | none => (.err 400 (some "MISSING_TITLE"), db)
        | some title =>
          if (jsTrim title) == "" then (.err 400 (some "MISSING_TITLE"), db)
          else match db.items.find? (fun it => it.id == jsParseInt itemIdRaw) with
          | none => (.err 404 none, db)
          | some _ =>
            let newReview : Review :=
              { id := nextId
                itemId := jsParseInt itemIdRaw
                userId := (jsTrim userId)
                rating := jsParseInt ratingRaw
                title := (jsTrim title)
                comment := trimOrNull inp.comment
                createdAt := now
                updatedAt := now }
            let db1 := insertReview db newReview
            (.reviewOk 201 newReview, updateItemRating db1 (jsParseInt itemIdRaw) now)

/-- Parsed JSON body of an Update request (`src/unnamed/part_001` line
159): each of the three patchable fields may be absent. -/
structure UpdateInput where
  rating : Option Rat
  title : Option String
  comment : Option String
deriving Repr, DecidableEq

/-- Validation of a supplied `rating` patch field (`src/unnamed/part_001`
lines 179-187): absent means no update; a supplied value must parseInt
into [1,5], else `INVALID_RATING`. -/
def putRatingField (rating : Option Rat) : Except String (Option Int) :=
  match rating with
  | none => .ok none
  | some q =>
    if jsParseInt q < 1 ∨ jsParseInt q > 5 then .error "INVALID_RATING"
    else .ok (some (jsParseInt q))

/-- Validation of a supplied `title` patch field (`src/unnamed/part_001`
lines 189-197): absent means no update; a supplied value must trim to a
nonempty string, else `INVALID_TITLE`. -/
def putTitleField (title : Option String) : Except String (Option String) :=
  match title with
  | none => .ok none
  | some t =>
    if (jsTrim t) == "" then .error "INVALID_TITLE"
    else .ok (some (jsTrim t))

/-- The `comment` patch field (`src/unnamed/part_001` lines 199-201):
absent means no update; a supplied value is stored as
`comment ? comment.trim() : null`. -/
def putCommentField (comment : Option String) : Option (Option String) :=
  match comment with
  | none => none
  | some c => some (if c == "" then none else some (jsTrim c))

/-- Application of the accumulated `updates` object to a review row:
supplied fields replace the old values, omitted ones are retained, and
`updatedAt` is always refreshed (`src/unnamed/part_001` lines 170-177,
203-206). -/
def applyUpdates (rv : Review) (newRating : Option Int)
    (newTitle : Option String) (newComment : Option (Option String))
    (now : String) : Review :=
  { rv with
    rating := newRating.getD rv.rating
    title := newTitle.getD rv.title
    comment := newComment.getD rv.comment
    updatedAt := now }

/-- Review Mutation Handler Update, `PUT` (`src/unnamed/part_001` lines
146-219): validate the `id` query parameter, fetch the existing review
(404 when absent), validate the supplied patch fields, apply the partial
update to the row, and recompute the parent item's aggregate only when
`rating` was part of the patch. The `idParam` is the parseInt result of
the query string (`none` when absent, empty or non-numeric). -/
def PUT (db : DB) (idParam : Option Int) (inp : UpdateInput) (now : String) :
    ReviewResponse × DB :=
  match idParam with
  | none => (.err 400 (some "INVALID_ID"), db)
  | some i =>
    match db.reviews.find? (fun rv => rv.id == i) with
    | none => (.err 404 none, db)
    | some existingReview =>
      match putRatingField inp.rating with
      | .error e => (.err 400 (some e), db)
      | .ok newRating =>
        match putTitleField inp.title with
        | .error e => (.err 400 (some e), db)
        | .ok newTitle =>
          let newComment := putCommentField inp.comment
          let db1 : DB :=
            { db with reviews := db.reviews.map (fun rv =>
                if rv.id == i then applyUpdates rv newRating newTitle newComment now
                else rv) }
          let updatedRow := applyUpdates existingReview newRating newTitle newComment now
          let db2 :=
            if inp.rating.isSome then updateItemRating db1 existingReview.itemId now
            else db1
          (.reviewOk 200 updatedRow, db2)

/-- Review Mutation Handler Delete, `DELETE` (`src/unnamed/part_001` lines
221-259): validate the `id` query parameter, fetch the existing review
(404 when absent), capture its `itemId`, delete the row, run
`updateItemRating` for the captured `itemId` unconditionally, and return
the deleted id with 200. -/
def DELETE (db : DB) (idParam : Option Int) (now : String) :
    ReviewResponse × DB :=
  match idParam with
  | none => (.err 400 (some "INVALID_ID"), db)
  | some i =>
    match db.reviews.find? (fun rv => rv.id == i) with
    | none => (.err 404 none, db)
    | some existingReview =>
      let capturedItemId := existingReview.itemId
      let db1 : DB :=
        { db with reviews := db.reviews.filter (fun rv : Review => !(rv.id == i)) }
      (.deleteOk 200 existingReview.id, updateItemRating db1 capturedItemId now)

/-- The review columns the list endpoint can order by. Both branches of
the source's column selection name `reviews.createdAt`, so there is only
one. -/
inductive SortColumn where
  | createdAt
deriving Repr, DecidableEq

/-- The column selection `sort === 'createdAt' ? reviews.createdAt :
reviews.createdAt` (`src/unnamed/part_001` line 69). -/
def orderColumn (sort : String) : SortColumn :=
  if sort == "createdAt" then SortColumn.createdAt else SortColumn.createdAt

/-- The value a review contributes to the chosen order column. -/
def sortKey : SortColumn → Review → String
  | SortColumn.createdAt => Review.createdAt

/-- The list path of `GET` (`src/unnamed/part_001` lines 57-76): optional
`itemId` filter, ordering by the selected column ascending when
`order === 'asc'` and descending otherwise, then OFFSET and LIMIT (the
limit capped at 100 at parse time, line 32). -/
def GETlist (db : DB) (itemIdParam : Option Int) (limitRaw offset : Nat)
    (sort order : String) : ReviewResponse :=
  let filtered : List Review :=
    match itemIdParam with
    | some n => db.reviews.filter (fun rv => rv.itemId == n)
    | none => db.reviews
  let col := orderColumn sort
  let sorted :=
    if order == "asc" then
      filtered.mergeSort (fun a b => decide (sortKey col a ≤ sortKey col b))
    else
      filtered.mergeSort (fun a b => decide (sortKey col b ≤ sortKey col a))
  .listOk 200 ((sorted.drop offset).take (min limitRaw 100))

/-- One Review Mutation Handler operation together with its request data;
`create` carries the id the store will assign to the inserted row. -/
inductive MutationOp where
  | create (inp : CreateInput) (nextId : Int)
  | update (idParam : Option Int) (inp : UpdateInput)
  | delete (idParam : Option Int)
deriving Repr, DecidableEq

/-- Dispatch of one mutation request to its handler. -/
def applyMutation (db : DB) (now : String) : MutationOp → ReviewResponse × DB
  | .create inp nextId => POST db inp nextId now
  | .update idParam inp => PUT db idParam inp now
  | .delete idParam => DELETE db idParam now

/-- Invariant I1: every item's stored aggregate pair equals the count and
the specified mean of its current review set. -/
def aggregatesConsistent (db : DB) : Prop :=
  ∀ it ∈ db.items,
    it.totalReviews = (reviewsFor db it.id).length ∧
    it.averageRating = specMean (reviewsFor db it.id)

/-- Primary-key uniqueness of the `reviews` table, guaranteed by the store
(`id` is `primaryKey({ autoIncrement: true })` in `src/unnamed/part_000`). -/
def reviewIdsUnique (db : DB) : Prop :=
  (db.reviews.map Review.id).Nodup

/-- A store with one fresh item and no reviews, used by witnesses. -/
def emptyDB : DB := ⟨[item1], []⟩

/-- The review row inserted by the fixed rating-5 Create of the
concurrency scenario. -/
def rating5Review (id : Int) (now : String) : Review :=
  ⟨id, 1, "u", 5, "t", none, now, now⟩

/-- The fixed valid Create body of the concurrency scenario: item 1,
rating 5. -/
def create5Input : CreateInput := ⟨some 1, some "u", some 5, some "t", none⟩

/-- Sequential (fully serialized) execution of N rating-5 Creates against
item 1, the k-th using store-assigned id k: each Create's insert and
recomputation complete before the next Create starts. -/
def seqCreates (db : DB) (now : String) : Nat → DB
  | 0 => db
  | n + 1 => (POST (seqCreates db now n) create5Input ((n : Int) + 1) now).2

/-- Interleaving scenario of two concurrent rating-5 Creates against
item 1, step 1: the first request's insert commits. The atomic units are
exactly the awaited store statements of the success path of `POST`:
`insertReview`, then inside `updateItemRating` the select (`reviewsFor`)
and the update (`writeAggregates`); nothing in the route serializes two
requests between those awaits. -/
def raceDB1 : DB := insertReview emptyDB (rating5Review 1 "t1")

/-- Step 2: the first request's recomputation select runs, snapshotting the
single review visible so far. -/
def raceSnap1 : List Review := reviewsFor raceDB1 1

/-- Step 3: the second request's insert commits. -/
def raceDB2 : DB := insertReview raceDB1 (rating5Review 2 "t1")

/-- Step 4: the second request's recomputation select runs, seeing both
reviews. -/
def raceSnap2 : List Review := reviewsFor raceDB2 1

/-- Step 5: the second request's aggregate write lands (count 2). -/
def raceDB3 : DB := writeAggregates raceDB2 1 raceSnap2 "t1"

/-- Step 6: the first request's aggregate write lands last, with its stale
one-review snapshot. -/
def raceFinal : DB := writeAggregates raceDB3 1 raceSnap1 "t2"

/-- A Create body with the non-integer rating 4.7 and otherwise valid
fields, aimed at item 1. -/
def input47 : CreateInput := ⟨some 1, some "alice", some (47 / 10), some "great", none⟩

/-- A store whose single item has exactly one review (rating 4), with its
aggregate already consistent. -/
def oneReviewDB : DB :=
  ⟨[⟨1, "Widget", none, "tools", none, 4, 1, "t0", "t0"⟩],
   [⟨10, 1, "alice", 4, "good", none, "t0", "t0"⟩]⟩

theorem sumRatings_eq_sum_map (rs : List Review) :
    sumRatings rs = (rs.map Review.rating).sum := by
  have h : ∀ (init : Int), rs.foldl (fun sum r => sum + r.rating) init
      = init + (rs.map Review.rating).sum := by
    induction rs with
    | nil => intro init; simp
    | cons r rs ih =>
        intro init
        simp only [List.foldl_cons, List.map_cons, List.sum_cons, ih]
        ring
  simpa [sumRatings] using h 0

theorem updateItemRating_reviews (db : DB) (itemId : Int) (now : String) :
    (updateItemRating db itemId now).reviews = db.reviews := rfl

theorem writeAggregates_mem_spec
    (db : DB) (itemId : Int) (rs : List Review) (now : String) (it : Item)
    (hmem : it ∈ (writeAggregates db itemId rs now).items)
    (hid : it.id = itemId) :
    it.totalReviews = rs.length ∧ it.averageRating = averageOf rs := by
  simp only [writeAggregates, List.mem_map] at hmem
  obtain ⟨a, -, heq⟩ := hmem
  split at heq
  case isTrue h =>
    subst heq
    exact ⟨rfl, rfl⟩
  case isFalse h =>
    subst heq
    exact absurd hid (by simpa using h)

theorem updateItemRating_mem_spec
    (db : DB) (itemId : Int) (now : String) (it : Item)
    (hmem : it ∈ (updateItemRating db itemId now).items)
    (hid : it.id = itemId) :
    it.totalReviews = (reviewsFor db itemId).length ∧
    it.averageRating = averageOf (reviewsFor db itemId) :=
  writeAggregates_mem_spec db itemId (reviewsFor db itemId) now it hmem hid

theorem averageOf_eq_specMean (rs : List Review) :
    averageOf rs = specMean rs := by
  by_cases hlen : rs.length = 0
  · simp [averageOf, specMean, hlen]
  · simp [averageOf, specMean, hlen, Nat.pos_of_ne_zero hlen, sumRatings_eq_sum_map]

/-- C1: updateItemRating sets the matching item's averageRating to
sum-of-ratings divided by count (as one exact division) and totalReviews to
the count of its persisted reviews, and the written pair is (0, 0) exactly
when the item's review set is empty. -/
theorem updateItemRating_correct
    (db : DB) (itemId : Int) (now : String) (it : Item)
    (hmem : it ∈ (updateItemRating db itemId now).items)
    (hid : it.id = itemId) :
    it.totalReviews = (reviewsFor db itemId).length ∧
    it.averageRating = specMean (reviewsFor db itemId) ∧
    ((it.averageRating = 0 ∧ it.totalReviews = 0) ↔ reviewsFor db itemId = []) := by
  obtain ⟨htot, havg⟩ := updateItemRating_mem_spec db itemId now it hmem hid
  refine ⟨htot, havg.trans (averageOf_eq_specMean _), ?_⟩
  constructor
  · rintro ⟨-, h0⟩
    rw [htot] at h0
    exact List.length_eq_zero.mp h0
  · intro hnil
    rw [htot, havg, hnil]
    simp [averageOf]

/-- Witness for C1 on a concrete store: one item, two reviews with ratings
4 and 2, recomputation writes average 3 and count 2. -/
theorem sampleDB_update_items :
    (updateItemRating sampleDB 1 "t1").items = [item1After] := by
  norm_num [updateItemRating, writeAggregates, sampleDB, averageOf,
    reviewsFor, sumRatings, item1, item1After, List.filter]

theorem item1After_mem_update : item1After ∈ (updateItemRating sampleDB 1 "t1").items := by
  rw [sampleDB_update_items]
  exact List.mem_singleton.mpr rfl

/-- Witness for C1 on a concrete store: one item, two reviews with ratings
4 and 2, recomputation writes average 3 and count 2. -/
theorem updateItemRating_correct_witness :
    item1After ∈ (updateItemRating sampleDB 1 "t1").items ∧
    item1After.id = 1 ∧
    (item1After.totalReviews = (reviewsFor sampleDB 1).length ∧
     item1After.averageRating = specMean (reviewsFor sampleDB 1) ∧
     ((item1After.averageRating = 0 ∧ item1After.totalReviews = 0) ↔
       reviewsFor sampleDB 1 = [])) :=
  ⟨item1After_mem_update, rfl,
   updateItemRating_correct sampleDB 1 "t1" item1After item1After_mem_update rfl⟩

theorem orderColumn_const (s : String) : orderColumn s = SortColumn.createdAt := by
  unfold orderColumn
  split <;> rfl

/-- C10: the value of the `sort` query parameter has no effect on the
review list: both branches of the column selection pick `createdAt`, so any
two sort values produce identical results; only `order` changes direction. -/
theorem GETlist_sort_irrelevant
    (db : DB) (itemIdParam : Option Int) (limitRaw offset : Nat)
    (s₁ s₂ order : String) :
    GETlist db itemIdParam limitRaw offset s₁ order
      = GETlist db itemIdParam limitRaw offset s₂ order := by
  simp only [GETlist, orderColumn_const]

/-- C7: recomputation aimed at an itemId matching no item row completes
without any error visible to the caller and leaves the store exactly as it
was: the UPDATE affects zero rows and fails silently. -/
theorem updateItemRating_missing_item
    (db : DB) (itemId : Int) (now : String)
    (h : ∀ it ∈ db.items, it.id ≠ itemId) :
    updateItemRating db itemId now = db := by
  cases db with
  | mk items revs =>
    simp only [updateItemRating, writeAggregates]
    congr 1
    have h' : ∀ it ∈ items, (if it.id == itemId then
        { it with
          averageRating := averageOf (reviewsFor ⟨items, revs⟩ itemId)
          totalReviews := (reviewsFor ⟨items, revs⟩ itemId).length
          updatedAt := now }
      else it) = it := by
      intro it hit
      rw [if_neg (by simpa using h it hit)]
    exact (List.map_congr_left h').trans (List.map_id items)

/-- Witness for C7: item id 99 matches nothing in the sample store, and
recomputation for it is a no-op. -/
theorem updateItemRating_missing_item_witness :
    (∀ it ∈ sampleDB.items, it.id ≠ 99) ∧
    updateItemRating sampleDB 99 "t1" = sampleDB :=
  ⟨by decide, updateItemRating_missing_item sampleDB 99 "t1" (by decide)⟩

/-- C5: a Create whose (otherwise valid) itemId matches no item returns the
404 not-found response and leaves both collections untouched: no review is
inserted and no recomputation runs. -/
theorem POST_unknown_item_404
    (db : DB) (inp : CreateInput) (nextId : Int) (now : String)
    (q ratq : Rat) (u t : String)
    (hitem : inp.itemId = some q) (hq : q ≠ 0)
    (huser : inp.userId = some u) (hu : (jsTrim u) ≠ "")
    (hrat : inp.rating = some ratq) (hr0 : ratq ≠ 0)
    (hr1 : 1 ≤ jsParseInt ratq) (hr5 : jsParseInt ratq ≤ 5)
    (htitle : inp.title = some t) (ht : (jsTrim t) ≠ "")
    (hfind : db.items.find? (fun it => it.id == jsParseInt q) = none) :
    POST db inp nextId now = (ReviewResponse.err 404 none, db) := by
  have hq' : (q == 0) = false := beq_eq_false_iff_ne.mpr hq
  have hu' : ((jsTrim u) == "") = false := beq_eq_false_iff_ne.mpr hu
  have hr0' : (ratq == 0) = false := beq_eq_false_iff_ne.mpr hr0
  have ht' : ((jsTrim t) == "") = false := beq_eq_false_iff_ne.mpr ht
  have hlt : ¬ jsParseInt ratq < 1 := not_lt.mpr hr1
  have hgt : ¬ jsParseInt ratq > 5 := not_lt.mpr hr5
  simp [POST, hitem, huser, hrat, htitle, hq', hu', hr0', ht', hlt, hgt, hfind]

/-- Witness for C5: Create aimed at item 2 in a store that only has item 1
is rejected with 404 and the store is returned unchanged. -/
theorem POST_unknown_item_404_witness :
    (emptyDB.items.find? (fun it => it.id == jsParseInt 2) = none) ∧
    POST emptyDB ⟨some 2, some "alice", some 5, some "fine", none⟩ 7 "t1"
      = (ReviewResponse.err 404 none, emptyDB) :=
  have h2 : jsParseInt 2 = 2 := by
    rw [jsParseInt, if_pos (by norm_num)]
    norm_num
  have hfind : emptyDB.items.find? (fun it => it.id == jsParseInt 2) = none := by
    simp only [h2]
    decide
  ⟨hfind,
   POST_unknown_item_404 emptyDB ⟨some 2, some "alice", some 5, some "fine", none⟩
     7 "t1" 2 5 "alice" "fine" rfl (by norm_num) rfl (by decide) rfl
     (by norm_num) (by norm_num [jsParseInt]) (by norm_num [jsParseInt])
     rfl (by decide) hfind⟩

/-- C6: an Update whose patch carries only `comment` leaves the items
collection (hence the aggregate) untouched, rewrites only the matching
review's `comment` and `updatedAt` (its `rating` and `title` are retained),
and answers 200 with the updated row. -/
theorem PUT_comment_only
    (db : DB) (i : Int) (c now : String) (r : Review)
    (hfind : db.reviews.find? (fun rv => rv.id == i) = some r) :
    ((PUT db (some i) ⟨none, none, some c⟩ now).2.items = db.items) ∧
    ((PUT db (some i) ⟨none, none, some c⟩ now).2.reviews =
      db.reviews.map (fun rv =>
        if rv.id == i then
          { rv with
            comment := if c == "" then none else some (jsTrim c)
            updatedAt := now }
        else rv)) ∧
    ((PUT db (some i) ⟨none, none, some c⟩ now).1 =
      ReviewResponse.reviewOk 200
        { r with
          comment := if c == "" then none else some (jsTrim c)
          updatedAt := now }) := by
  simp [PUT, hfind, putRatingField, putTitleField, putCommentField, applyUpdates]

/-- Witness for C6 on the sample store: patching only the comment of
review 10 keeps its rating 4 and title, and the item rows are unchanged. -/
theorem PUT_comment_only_witness :
    (sampleDB.reviews.find? (fun rv => rv.id == 10) =
      some ⟨10, 1, "alice", 4, "good", none, "t0", "t0"⟩) ∧
    (((PUT sampleDB (some 10) ⟨none, none, some " nice "⟩ "t2").2.items
        = sampleDB.items) ∧
     ((PUT sampleDB (some 10) ⟨none, none, some " nice "⟩ "t2").2.reviews =
       sampleDB.reviews.map (fun rv =>
         if rv.id == 10 then
           { rv with
             comment := if " nice " == "" then none else some (jsTrim " nice ")
             updatedAt := "t2" }
         else rv)) ∧
     ((PUT sampleDB (some 10) ⟨none, none, some " nice "⟩ "t2").1 =
       ReviewResponse.reviewOk 200
         { (⟨10, 1, "alice", 4, "good", none, "t0", "t0"⟩ : Review) with
           comment := if " nice " == "" then none else some (jsTrim " nice ")
           updatedAt := "t2" })) :=
  ⟨by decide,
   PUT_comment_only sampleDB 10 " nice " "t2"
     ⟨10, 1, "alice", 4, "good", none, "t0", "t0"⟩ (by decide)⟩

/-- C4 evidence: the code does not reject the non-integer rating 4.7.
Create with rating 4.7 succeeds with 201 and persists the truncated
rating 4, and Update with rating 4.7 likewise succeeds and stores 4,
although the claim (and the route's own error message) says a non-integer
rating must be rejected with INVALID_RATING before persistence. -/
theorem rating_4_7_accepted :
    (POST emptyDB input47 10 "t1").1 =
      ReviewResponse.reviewOk 201 ⟨10, 1, "alice", 4, "great", none, "t1", "t1"⟩ ∧
    (⟨10, 1, "alice", 4, "great", none, "t1", "t1"⟩ : Review) ∈
      (POST emptyDB input47 10 "t1").2.reviews ∧
    (PUT oneReviewDB (some 10) ⟨some (47 / 10), none, none⟩ "t1").1 =
      ReviewResponse.reviewOk 200 ⟨10, 1, "alice", 4, "good", none, "t0", "t1"⟩ := by
  have hparse : jsParseInt (47 / 10) = 4 := by
    rw [jsParseInt, if_pos (by norm_num)]
    norm_num
  have hp1 : jsParseInt 1 = 1 := by
    rw [jsParseInt, if_pos (by norm_num)]
    norm_num
  have ha : jsTrim "alice" = "alice" := by decide
  have hg : jsTrim "great" = "great" := by decide
  have hfind1 : emptyDB.items.find? (fun it => it.id == (1 : Int)) = some item1 := by
    decide
  have hfind10 : oneReviewDB.reviews.find? (fun rv => rv.id == 10) =
      some ⟨10, 1, "alice", 4, "good", none, "t0", "t0"⟩ := by decide
  have hae : ¬ ("alice" = "") := by decide
  have hge : ¬ ("great" = "") := by decide
  refine ⟨?_, ?_, ?_⟩
  · norm_num [POST, input47, hparse, hp1, ha, hg, hae, hge, trimOrNull, hfind1]
  · norm_num [POST, input47, hparse, hp1, ha, hg, hae, hge, trimOrNull, hfind1,
      updateItemRating_reviews, insertReview]
  · norm_num [PUT, oneReviewDB, hfind10, putRatingField, putTitleField,
      putCommentField, applyUpdates, hparse]

/-- C3: deleting an item's only remaining review succeeds (itemId captured
before the row is removed, recomputation run unconditionally after) and
leaves that item with averageRating exactly 0 and totalReviews exactly 0. -/
theorem DELETE_last_review
    (db : DB) (i : Int) (now : String) (r : Review)
    (hfind : db.reviews.find? (fun rv => rv.id == i) = some r)
    (honly : reviewsFor db r.itemId = [r]) :
    (DELETE db (some i) now).1 = ReviewResponse.deleteOk 200 r.id ∧
    ∀ it ∈ (DELETE db (some i) now).2.items, it.id = r.itemId →
      it.averageRating = 0 ∧ it.totalReviews = 0 := by
  have hbeq : (r.id == i) = true := by
    have h := List.find?_some hfind
    simpa using h
  have hDel2 : (DELETE db (some i) now).2 =
      updateItemRating
        { db with reviews := db.reviews.filter (fun rv : Review => !(rv.id == i)) }
        r.itemId now := by
    simp [DELETE, hfind]
  have hempty : reviewsFor
      ({ db with reviews := db.reviews.filter (fun rv : Review => !(rv.id == i)) } : DB)
      r.itemId = [] := by
    rw [List.eq_nil_iff_forall_not_mem]
    intro rv hrv
    simp only [reviewsFor, List.mem_filter] at hrv
    have hrvr : rv = r := by
      have hmem : rv ∈ reviewsFor db r.itemId :=
        List.mem_filter.mpr ⟨hrv.1.1, hrv.2⟩
      rw [honly] at hmem
      simpa using hmem
    subst hrvr
    rw [hbeq] at hrv
    simp at hrv
  constructor
  · simp [DELETE, hfind]
  · intro it hit hid
    rw [hDel2] at hit
    obtain ⟨htot, havg⟩ := updateItemRating_mem_spec _ _ _ _ hit hid
    refine ⟨?_, ?_⟩
    · rw [havg, hempty]
      simp [averageOf]
    · rw [htot, hempty]
      rfl

/-- Witness for C3: deleting the single review of the one-review store
resets that item's aggregate to (0, 0). -/
theorem DELETE_last_review_witness :
    (oneReviewDB.reviews.find? (fun rv => rv.id == 10) =
      some ⟨10, 1, "alice", 4, "good", none, "t0", "t0"⟩) ∧
    (reviewsFor oneReviewDB 1 = [⟨10, 1, "alice", 4, "good", none, "t0", "t0"⟩]) ∧
    ((DELETE oneReviewDB (some 10) "t1").1 = ReviewResponse.deleteOk 200 10 ∧
     ∀ it ∈ (DELETE oneReviewDB (some 10) "t1").2.items, it.id = 1 →
       it.averageRating = 0 ∧ it.totalReviews = 0) :=
  ⟨by decide, by decide,
   DELETE_last_review oneReviewDB 10 "t1" ⟨10, 1, "alice", 4, "good", none, "t0", "t0"⟩
     (by decide) (by decide)⟩

theorem sum_ratings_bounds (rs : List Review)
    (h : ∀ rv ∈ rs, 1 ≤ rv.rating ∧ rv.rating ≤ 5) :
    (rs.length : Int) ≤ (rs.map Review.rating).sum ∧
    (rs.map Review.rating).sum ≤ 5 * rs.length := by
  induction rs with
  | nil => simp
  | cons a l ih =>
    obtain ⟨h1, h5⟩ := h a (List.mem_cons_self a l)
    obtain ⟨ihl, ihr⟩ := ih (fun rv hrv => h rv (List.mem_cons_of_mem a hrv))
    constructor
    · simp only [List.map_cons, List.sum_cons, List.length_cons]
      push_cast
      omega
    · simp only [List.map_cons, List.sum_cons, List.length_cons]
      push_cast
      omega

/-- C8: when every persisted rating is an integer in [1,5], the
averageRating written by recomputation lies in [0,5]: it is 0 exactly when
the item has no reviews and otherwise lies in [1,5]. -/
theorem averageRating_range
    (db : DB) (itemId : Int) (now : String) (it : Item)
    (hall : ∀ rv ∈ db.reviews, 1 ≤ rv.rating ∧ rv.rating ≤ 5)
    (hmem : it ∈ (updateItemRating db itemId now).items)
    (hid : it.id = itemId) :
    0 ≤ it.averageRating ∧ it.averageRating ≤ 5 ∧
    (it.averageRating = 0 ↔ reviewsFor db itemId = []) ∧
    (reviewsFor db itemId ≠ [] → 1 ≤ it.averageRating) := by
  obtain ⟨htot, havg⟩ := updateItemRating_mem_spec db itemId now it hmem hid
  have hsub : ∀ rv ∈ reviewsFor db itemId, 1 ≤ rv.rating ∧ rv.rating ≤ 5 :=
    fun rv hrv => hall rv (List.mem_filter.mp hrv).1
  obtain ⟨hlow, hhigh⟩ := sum_ratings_bounds _ hsub
  rcases eq_or_ne (reviewsFor db itemId) [] with hnil | hne
  · rw [havg, hnil]
    simp [averageOf, hnil]
  · have hlen : 0 < (reviewsFor db itemId).length := List.length_pos.mpr hne
    have hlenQ : (0 : Rat) < ((reviewsFor db itemId).length : Rat) := by
      exact_mod_cast hlen
    have havg' : it.averageRating =
        ((((reviewsFor db itemId).map Review.rating).sum : Int) : Rat) /
          (((reviewsFor db itemId).length : Nat) : Rat) := by
      rw [havg, averageOf, if_pos hlen, sumRatings_eq_sum_map]
    have h1le : (1 : Rat) ≤ it.averageRating := by
      rw [havg', le_div_iff₀ hlenQ, one_mul]
      exact_mod_cast hlow
    have h5ge : it.averageRating ≤ 5 := by
      rw [havg', div_le_iff₀ hlenQ]
      exact_mod_cast hhigh
    refine ⟨le_trans zero_le_one h1le, h5ge, ?_, fun _ => h1le⟩
    constructor
    · intro h0
      rw [h0] at h1le
      norm_num at h1le
    · intro h
      exact absurd h hne

/-- Witness for C8 on the sample store: ratings 4 and 2 give average 3,
which lies in [1,5] and is nonzero. -/
theorem averageRating_range_witness :
    (∀ rv ∈ sampleDB.reviews, 1 ≤ rv.rating ∧ rv.rating ≤ 5) ∧
    (0 ≤ item1After.averageRating ∧ item1After.averageRating ≤ 5 ∧
     (item1After.averageRating = 0 ↔ reviewsFor sampleDB 1 = []) ∧
     (reviewsFor sampleDB 1 ≠ [] → 1 ≤ item1After.averageRating)) :=
  ⟨by decide,
   averageRating_range sampleDB 1 "t1" item1After (by decide)
     item1After_mem_update rfl⟩

theorem reviewsFor_insert_ne (db : DB) (r : Review) (j : Int)
    (h : r.itemId ≠ j) :
    reviewsFor (insertReview db r) j = reviewsFor db j := by
  have hb : (r.itemId == j) = false := beq_eq_false_iff_ne.mpr h
  simp [reviewsFor, insertReview, List.filter_append, hb]

theorem filter_map_preserving (rs : List Review) (f : Review → Review) (j : Int)
    (hitem : ∀ rv, (f rv).itemId = rv.itemId) :
    (rs.map f).filter (fun r => r.itemId == j) =
      (rs.filter (fun r => r.itemId == j)).map f := by
  induction rs with
  | nil => rfl
  | cons a l ih =>
    simp only [List.map_cons, List.filter_cons, hitem a]
    by_cases h : (a.itemId == j) = true
    · simp [h, ih]
    · rw [Bool.not_eq_true] at h
      simp [h, ih]

theorem specMean_map_preserving (rs : List Review) (f : Review → Review)
    (hrat : ∀ rv, (f rv).rating = rv.rating) :
    specMean (rs.map f) = specMean rs := by
  have hm : (rs.map f).map Review.rating = rs.map Review.rating := by
    rw [List.map_map]
    exact List.map_congr_left (fun a _ => hrat a)
  unfold specMean
  rw [List.length_map, hm]

theorem aggregatesConsistent_writeback (db : DB) (x : Int) (now : String)
    (h : ∀ it ∈ db.items, it.id ≠ x →
      it.totalReviews = (reviewsFor db it.id).length ∧
      it.averageRating = specMean (reviewsFor db it.id)) :
    aggregatesConsistent (updateItemRating db x now) := by
  intro it hmem
  have hrev : ∀ j, reviewsFor (updateItemRating db x now) j = reviewsFor db j :=
    fun j => rfl
  simp only [hrev]
  simp only [updateItemRating, writeAggregates, List.mem_map] at hmem
  obtain ⟨a, ha, heq⟩ := hmem
  split at heq
  case isTrue hb =>
    subst heq
    have hax : a.id = x := by simpa using hb
    refine ⟨?_, ?_⟩ <;> simp [hax, averageOf_eq_specMean]
  case isFalse hb =>
    subst heq
    have hax : a.id ≠ x := by simpa using hb
    exact h a ha hax

theorem aggregatesConsistent_map (db : DB) (f : Review → Review)
    (hitem : ∀ rv, (f rv).itemId = rv.itemId)
    (hrat : ∀ rv, (f rv).rating = rv.rating)
    (hcons : aggregatesConsistent db) :
    aggregatesConsistent { db with reviews := db.reviews.map f } := by
  intro it hmem
  have hfor : ∀ j, reviewsFor { db with reviews := db.reviews.map f } j
      = (reviewsFor db j).map f :=
    fun j => filter_map_preserving db.reviews f j hitem
  obtain ⟨h1, h2⟩ := hcons it hmem
  refine ⟨?_, ?_⟩
  · rw [hfor, List.length_map]
    exact h1
  · rw [hfor, specMean_map_preserving _ _ hrat]
    exact h2

theorem reviewsFor_applyUpdates_other
    (db : DB) (i : Int) (er : Review) (nr : Option Int) (nt : Option String)
    (nc : Option (Option String)) (now : String) (j : Int)
    (huniq : reviewIdsUnique db) (hmem : er ∈ db.reviews) (hid : er.id = i)
    (hXj : er.itemId ≠ j) :
    reviewsFor { db with reviews := db.reviews.map (fun rv =>
        if rv.id == i then applyUpdates rv nr nt nc now else rv) } j
      = reviewsFor db j := by
  have hitem : ∀ rv : Review,
      ((fun rv => if rv.id == i then applyUpdates rv nr nt nc now else rv) rv).itemId
        = rv.itemId := by
    intro rv
    by_cases h : (rv.id == i) = true <;> simp [h, applyUpdates]
  have hfor : reviewsFor { db with reviews := db.reviews.map (fun rv =>
      if rv.id == i then applyUpdates rv nr nt nc now else rv) } j
      = (reviewsFor db j).map (fun rv =>
          if rv.id == i then applyUpdates rv nr nt nc now else rv) :=
    filter_map_preserving db.reviews _ j hitem
  rw [hfor]
  have hident : ∀ rv ∈ reviewsFor db j,
      (fun rv => if rv.id == i then applyUpdates rv nr nt nc now else rv) rv = rv := by
    intro rv hrv
    obtain ⟨hrvmem, hrvid⟩ := List.mem_filter.mp hrv
    have hne : rv.id ≠ i := by
      intro heq
      have hre : rv = er :=
        List.inj_on_of_nodup_map huniq hrvmem hmem (heq.trans hid.symm)
      apply hXj
      rw [← hre]
      simpa using hrvid
    simp [beq_eq_false_iff_ne.mpr hne]
  exact (List.map_congr_left hident).trans (List.map_id _)

theorem reviewsFor_erase_other (db : DB) (i : Int) (er : Review) (j : Int)
    (huniq : reviewIdsUnique db) (hmem : er ∈ db.reviews) (hid : er.id = i)
    (hXj : er.itemId ≠ j) :
    reviewsFor
      { db with reviews := db.reviews.filter (fun rv : Review => !(rv.id == i)) } j
      = reviewsFor db j := by
  simp only [reviewsFor, List.filter_filter]
  apply List.filter_congr
  intro a hamem
  by_cases hj : (a.itemId == j) = true
  · have haj : a.itemId = j := by simpa using hj
    have hne : a.id ≠ i := by
      intro heq
      have hae : a = er :=
        List.inj_on_of_nodup_map huniq hamem hmem (heq.trans hid.symm)
      exact hXj (hae ▸ haj)
    simp [hj, beq_eq_false_iff_ne.mpr hne]
  · rw [Bool.not_eq_true] at hj
    simp [hj]

theorem POST_preserves (db : DB) (inp : CreateInput) (nextId : Int) (now : String)
    (hcons : aggregatesConsistent db) :
    aggregatesConsistent (POST db inp nextId now).2 := by
  obtain ⟨oItem, oUser, oRat, oTitle, oComment⟩ := inp
  simp only [POST]
  cases oItem with
  | none => exact hcons
  | some q =>
    dsimp only
    by_cases h0 : (q == 0) = true
    · rw [if_pos h0]
      exact hcons
    · rw [if_neg h0]
      cases oUser with
      | none => exact hcons
      | some u =>
        dsimp only
        by_cases hu : ((jsTrim u) == "") = true
        · rw [if_pos hu]
          exact hcons
        · rw [if_neg hu]
          cases oRat with
          | none => exact hcons
          | some rq =>
            dsimp only
            by_cases hr : (rq == 0) = true ∨ jsParseInt rq < 1 ∨ jsParseInt rq > 5
            · rw [if_pos hr]
              exact hcons
            · rw [if_neg hr]
              cases oTitle with
              | none => exact hcons
              | some tt =>
                dsimp only
                by_cases ht : ((jsTrim tt) == "") = true
                · rw [if_pos ht]
                  exact hcons
                · rw [if_neg ht]
                  cases hfind : db.items.find? (fun it => it.id == jsParseInt q) with
                  | none =>
                    simp only [hfind]
                    exact hcons
                  | some it0 =>
                    simp only [hfind]
                    apply aggregatesConsistent_writeback
                    intro it hit hne
                    rw [reviewsFor_insert_ne db
                      ⟨nextId, jsParseInt q, jsTrim u, jsParseInt rq, jsTrim tt,
                        trimOrNull oComment, now, now⟩
                      it.id (Ne.symm hne)]
                    exact hcons it hit

theorem PUT_preserves (db : DB) (idParam : Option Int) (inp : UpdateInput)
    (now : String)
    (hcons : aggregatesConsistent db) (huniq : reviewIdsUnique db) :
    aggregatesConsistent (PUT db idParam inp now).2 := by
  obtain ⟨oRat, oTitle, oComment⟩ := inp
  simp only [PUT]
  cases idParam with
  | none => exact hcons
  | some i =>
    cases hfind : db.reviews.find? (fun rv => rv.id == i) with
    | none =>
      simp only [hfind]
      exact hcons
    | some er =>
      simp only [hfind]
      have hermem : er ∈ db.reviews := List.mem_of_find?_eq_some hfind
      have herid : er.id = i := by
        simpa using List.find?_some hfind
      cases oRat with
      | none =>
        cases oTitle with
        | none =>
          exact aggregatesConsistent_map db
            (fun rv => if rv.id == i then
              applyUpdates rv none none (putCommentField oComment) now else rv)
            (by intro rv; by_cases h : (rv.id == i) = true <;> simp [h, applyUpdates])
            (by intro rv; by_cases h : (rv.id == i) = true <;> simp [h, applyUpdates])
            hcons
        | some tt =>
          by_cases ht : ((jsTrim tt) == "") = true
          · simp only [putTitleField, if_pos ht]
            exact hcons
          · simp only [putTitleField, if_neg ht]
            exact aggregatesConsistent_map db
              (fun rv => if rv.id == i then
                applyUpdates rv none (some (jsTrim tt)) (putCommentField oComment) now
                else rv)
              (by intro rv; by_cases h : (rv.id == i) = true <;> simp [h, applyUpdates])
              (by intro rv; by_cases h : (rv.id == i) = true <;> simp [h, applyUpdates])
              hcons
      | some rq =>
        by_cases hr : jsParseInt rq < 1 ∨ jsParseInt rq > 5
        · simp only [putRatingField, if_pos hr]
          exact hcons
        · simp only [putRatingField, if_neg hr]
          cases oTitle with
          | none =>
            apply aggregatesConsistent_writeback
            intro it hit hne
            rw [reviewsFor_applyUpdates_other db i er (some (jsParseInt rq)) none
              (putCommentField oComment) now it.id huniq hermem herid (Ne.symm hne)]
            exact hcons it hit
          | some tt =>
            by_cases ht : ((jsTrim tt) == "") = true
            · simp only [putTitleField, if_pos ht]
              exact hcons
            · simp only [putTitleField, if_neg ht]
              apply aggregatesConsistent_writeback
              intro it hit hne
              rw [reviewsFor_applyUpdates_other db i er (some (jsParseInt rq))
                (some (jsTrim tt)) (putCommentField oComment) now it.id huniq hermem
                herid (Ne.symm hne)]
              exact hcons it hit

theorem DELETE_preserves (db : DB) (idParam : Option Int) (now : String)
    (hcons : aggregatesConsistent db) (huniq : reviewIdsUnique db) :
    aggregatesConsistent (DELETE db idParam now).2 := by
  simp only [DELETE]
  cases idParam with
  | none => exact hcons
  | some i =>
    cases hfind : db.reviews.find? (fun rv => rv.id == i) with
    | none =>
      simp only [hfind]
      exact hcons
    | some er =>
      simp only [hfind]
      have hermem : er ∈ db.reviews := List.mem_of_find?_eq_some hfind
      have herid : er.id = i := by
        simpa using List.find?_some hfind
      apply aggregatesConsistent_writeback
      intro it hit hne
      rw [reviewsFor_erase_other db i er it.id huniq hermem herid (Ne.symm hne)]
      exact hcons it hit

/-- C2: invariant I1 is preserved by every Review Mutation Handler
operation: starting from a store whose aggregates reflect the current
review sets (and whose review ids are unique, the store's primary-key
guarantee), any Create, Update (including rating-less Updates that skip
recomputation) or Delete leaves every item's stored averageRating and
totalReviews equal to the mean and count over its full current review
set. -/
theorem mutation_preserves_aggregate_invariant
    (db : DB) (now : String) (op : MutationOp)
    (hcons : aggregatesConsistent db) (huniq : reviewIdsUnique db) :
    aggregatesConsistent (applyMutation db now op).2 := by
  cases op with
  | create inp nextId => exact POST_preserves db inp nextId now hcons
  | update idParam inp => exact PUT_preserves db idParam inp now hcons huniq
  | delete idParam => exact DELETE_preserves db idParam now hcons huniq

/-- Witness for C2: the empty one-item store is consistent and stays
consistent across a successful Create. -/
theorem mutation_preserves_aggregate_invariant_witness :
    aggregatesConsistent emptyDB ∧ reviewIdsUnique emptyDB ∧
    aggregatesConsistent
      (applyMutation emptyDB "t1" (MutationOp.create create5Input 2)).2 :=
  have hc : aggregatesConsistent emptyDB := by
    unfold aggregatesConsistent
    decide
  have hu : reviewIdsUnique emptyDB := by
    unfold reviewIdsUnique
    decide
  ⟨hc, hu,
   mutation_preserves_aggregate_invariant emptyDB "t1"
     (MutationOp.create create5Input 2) hc hu⟩

/-- C9 counterexample: under the interleaving insert₁, read₁, insert₂,
read₂, write₂, write₁ of two concurrent rating-5 Creates for item 1, both
review rows persist (N = 2) but the final aggregate write is the first
request's stale one-review snapshot: totalReviews ends at 1, not N, so the
claimed property fails for this interleaving. -/
theorem concurrent_creates_lose_update :
    raceFinal.reviews.length = 2 ∧
    raceFinal.items.map Item.totalReviews = [1] ∧
    raceFinal.items.map Item.averageRating = [5] ∧
    raceFinal.items.map Item.totalReviews ≠ [raceFinal.reviews.length] := by
  refine ⟨rfl, ?_, ?_, ?_⟩ <;>
    norm_num [raceFinal, raceDB3, raceDB2, raceDB1, raceSnap1, raceSnap2,
      writeAggregates, insertReview, emptyDB, item1, reviewsFor, averageOf,
      sumRatings, rating5Review]

theorem sum_const5 (rs : List Review) (h : ∀ rv ∈ rs, rv.rating = 5) :
    (rs.map Review.rating).sum = 5 * rs.length := by
  induction rs with
  | nil => simp
  | cons a l ih =>
    have ha := h a (List.mem_cons_self a l)
    have ihl := ih (fun rv hrv => h rv (List.mem_cons_of_mem a hrv))
    simp only [List.map_cons, List.sum_cons, List.length_cons, ha, ihl]
    push_cast
    ring

theorem POST_create5_step (it : Item) (revs : List Review) (nextId : Int)
    (now : String) (hid : it.id = 1)
    (hall : ∀ rv ∈ revs, rv.itemId = 1 ∧ rv.rating = 5) :
    (POST ⟨[it], revs⟩ create5Input nextId now).2 =
      ⟨[{ it with
            averageRating := 5
            totalReviews := revs.length + 1
            updatedAt := now }],
       revs ++ [⟨nextId, 1, "u", 5, "t", none, now, now⟩]⟩ := by
  have hp1 : jsParseInt 1 = 1 := by
    rw [jsParseInt, if_pos (by norm_num)]
    norm_num
  have hp5 : jsParseInt 5 = 5 := by
    rw [jsParseInt, if_pos (by norm_num)]
    norm_num
  have hu : jsTrim "u" = "u" := by decide
  have htt : jsTrim "t" = "t" := by decide
  have h10 : ((1 : Rat) == 0) = false := beq_eq_false_iff_ne.mpr (by norm_num)
  have hue : ((jsTrim "u") == "") = false := by decide
  have hte : ((jsTrim "t") == "") = false := by decide
  have hrcond : ¬(((5 : Rat) == 0) = true ∨ jsParseInt 5 < 1 ∨ jsParseInt 5 > 5) := by
    rw [hp5]
    have h50 : ((5 : Rat) == 0) = false := beq_eq_false_iff_ne.mpr (by norm_num)
    rw [h50]
    norm_num
  have hidb : (it.id == (1 : Int)) = true := beq_iff_eq.mpr hid
  have hfind : List.find? (fun x => x.id == jsParseInt 1) [it] = some it := by
    rw [hp1]
    exact List.find?_cons_of_pos _ hidb
  have hnewR : ∀ rv ∈ revs ++ [(⟨nextId, 1, "u", 5, "t", none, now, now⟩ : Review)],
      (rv.itemId == (1 : Int)) = true := by
    intro rv hrv
    rcases List.mem_append.mp hrv with hin | hin
    · exact beq_iff_eq.mpr (hall rv hin).1
    · rw [List.mem_singleton.mp hin]
      rfl
  have hRF : reviewsFor
      (insertReview ⟨[it], revs⟩ ⟨nextId, 1, "u", 5, "t", none, now, now⟩) 1 =
      revs ++ [⟨nextId, 1, "u", 5, "t", none, now, now⟩] := by
    simp only [reviewsFor, insertReview]
    exact List.filter_eq_self.mpr hnewR
  have hall5 : ∀ rv ∈ revs ++ [(⟨nextId, 1, "u", 5, "t", none, now, now⟩ : Review)],
      rv.rating = 5 := by
    intro rv hrv
    rcases List.mem_append.mp hrv with hin | hin
    · exact (hall rv hin).2
    · rw [List.mem_singleton.mp hin]
  have havg : averageOf (revs ++ [(⟨nextId, 1, "u", 5, "t", none, now, now⟩ : Review)]) = 5 := by
    rw [averageOf, if_pos (by simp), sumRatings_eq_sum_map, sum_const5 _ hall5]
    have hL0 : (((revs ++ [(⟨nextId, 1, "u", 5, "t", none, now, now⟩ : Review)]).length : Nat)
        : Rat) ≠ 0 := by
      have hpos : 0 < (revs ++ [(⟨nextId, 1, "u", 5, "t", none, now, now⟩ : Review)]).length := by
        simp
      exact_mod_cast hpos.ne'
    push_cast at hL0 ⊢
    rw [mul_div_assoc, div_self hL0, mul_one]
  have hue' : (("u" : String) == "") = false := by decide
  have hte' : (("t" : String) == "") = false := by decide
  have hrcond' : ¬(((5 : Rat) == 0) = true ∨ (5 : Int) < 1 ∨ (5 : Int) > 5) := by
    have h50 : ((5 : Rat) == 0) = false := beq_eq_false_iff_ne.mpr (by norm_num)
    rw [h50]
    norm_num
  have hfind' : List.find? (fun x => x.id == (1 : Int)) [it] = some it :=
    List.find?_cons_of_pos _ hidb
  have hpost2 : (POST ⟨[it], revs⟩ create5Input nextId now).2 =
      updateItemRating
        (insertReview ⟨[it], revs⟩ ⟨nextId, 1, "u", 5, "t", none, now, now⟩) 1 now := by
    simp only [POST, create5Input, hp1, hp5, hu, htt, h10, hue', hte',
      Bool.false_eq_true, if_false, hrcond', hfind', trimOrNull]
  rw [hpost2]
  unfold updateItemRating
  rw [hRF]
  simp [writeAggregates, insertReview, hidb, havg]
  exact fun h => absurd hid h

theorem seqCreates_spec (now : String) (n : Nat) :
    seqCreates emptyDB now n =
      ⟨[if n = 0 then item1 else ⟨1, "Widget", none, "tools", none, 5, n, "t0", now⟩],
       (List.range n).map
         (fun k : Nat => ⟨(k : Int) + 1, 1, "u", 5, "t", none, now, now⟩)⟩ := by
  induction n with
  | zero => simp [seqCreates, emptyDB]
  | succ m ih =>
    simp only [seqCreates]
    rw [ih]
    rw [POST_create5_step _ _ _ _
      (by by_cases h : m = 0 <;> simp [h, item1])
      (by
        intro rv hrv
        obtain ⟨k, -, hk⟩ := List.mem_map.mp hrv
        rw [← hk]
        exact ⟨rfl, rfl⟩)]
    rw [List.length_map, List.length_range, List.range_succ, List.map_append]
    by_cases h : m = 0
    · subst h
      simp [item1]
    · simp [h]

/-- C9 amended: only for serialized execution does the claim hold: N
sequential rating-5 Creates against item 1 (each request's insert and
recomputation completing before the next begins) end with totalReviews = N,
averageRating = 5 (0 when N = 0), and N persisted review rows. For
concurrent interleavings the route has no per-item serialization and the
property fails (see the lost-update counterexample). -/
theorem seqCreates_aggregates (now : String) (n : Nat) :
    (seqCreates emptyDB now n).reviews.length = n ∧
    (seqCreates emptyDB now n).items.map Item.totalReviews = [n] ∧
    (seqCreates emptyDB now n).items.map Item.averageRating
      = [if n = 0 then 0 else 5] := by
  rw [seqCreates_spec]
  refine ⟨by rw [List.length_map, List.length_range], ?_, ?_⟩ <;>
    by_cases h : n = 0 <;> simp [h, item1]

end RVHub
